import Mathlib

/-!
Verification of the stage-progression and pipeline-orchestration core of the
stackclass backend against its natural-language specification.

The Rust source is shallowly embedded: the relational store (stages,
user_courses, user_stages) becomes lists of records, each repository function
becomes a pure function over a `DB` value mirroring the SQL it issues, and the
service-layer functions (`StageService::complete`, `CourseService::activate`,
`RepoService::process`) are translated match-for-match, with database
transactions modelled by returning the original `DB` on every error path
(rollback) and timestamps / generated UUIDs passed as explicit parameters.
Rust strings are Lean `String`s; a Rust `&str` equals another exactly when
their UTF-8 bytes agree, which coincides with Lean `String` equality.
The `courses` table is flattened into the records that the SQL joins produce:
a stage carries the slug of its course, an enrollment carries the slug of its
course, exactly the columns the queries of the source select.
-/

namespace StackClass

/-- A stage row, as selected by the queries in `src/repository/stage.rs`
(`SELECT s.*, e.slug as extension_slug ... JOIN courses c ON s.course_id = c.id`):
the join on `courses` is flattened into `courseSlug`. -/
structure Stage where
  id : Nat
  courseSlug : String
  extensionId : Option Nat
  slug : String
  weight : Int
  deriving Repr, DecidableEq

/-- An enrollment row (`user_courses` joined with `courses`), from
`src/model/course.rs` (`UserCourseModel`). -/
structure UserCourse where
  id : Nat
  userId : String
  courseSlug : String
  currentStageId : Option Nat
  completedStageCount : Int
  proficiency : String
  cadence : String
  accountability : Bool
  activated : Bool
  deriving Repr, DecidableEq

/-- A stage-progress row (`user_stages`), from `src/model/stage.rs`
(`UserStageModel`). `status` is "in_progress" or "completed", `test` is
"failed" or "passed"; timestamps are abstract `Nat` instants. -/
structure UserStage where
  id : Nat
  userCourseId : Nat
  stageId : Nat
  status : String
  test : String
  startedAt : Nat
  completedAt : Option Nat
  deriving Repr, DecidableEq

/-- The relational store of record. -/
structure DB where
  stages : List Stage
  userCourses : List UserCourse
  userStages : List UserStage
  deriving Repr, DecidableEq

/-- The error cases of `src/errors.rs` (`ApiError`) reachable from the
embedded operations.  `databaseError` is `ApiError::DatabaseError`, the
image under `From<sqlx::Error>` of any driver failure that is neither a
unique violation nor `RowNotFound` — in particular of a statement PostgreSQL
rejects at prepare time. -/
inductive ApiError where
  | notFound
  | conflict
  | stageAlreadyCompleted
  | stageNotInProgress
  | stageOutOfOrder
  | databaseError
  deriving Repr, DecidableEq

/-- `UserStageModel::new`: a fresh progress row, status `in_progress`,
test `failed`, no completion timestamp (`src/model/stage.rs`). -/
def UserStage.new (id userCourseId stageId now : Nat) : UserStage :=
  { id := id, userCourseId := userCourseId, stageId := stageId,
    status := "in_progress", test := "failed", startedAt := now,
    completedAt := none }

/-- `UserStageModel::passed`: marks the test as passed (in memory). -/
def UserStage.passed (us : UserStage) : UserStage := { us with test := "passed" }

/-- `UserStageModel::complete`: marks the row completed at the current
instant (in memory). -/
def UserStage.complete (us : UserStage) (now : Nat) : UserStage :=
  { us with status := "completed", completedAt := some now }

/-- `CourseRepository::get_user_course`: first `user_courses` row joined on
`courses` with the given user id and course slug; `fetch_one` turns an empty
result into `RowNotFound`, which `From<sqlx::Error>` maps to `NotFound`. -/
def get_user_course (db : DB) (u c : String) : Except ApiError UserCourse :=
  match db.userCourses.find? (fun e => decide (e.userId = u ∧ e.courseSlug = c)) with
  | some e => .ok e
  | none => .error .notFound

/-- `CourseRepository::get_user_course_by_id`: lookup by primary key. -/
def get_user_course_by_id (db : DB) (id : Nat) : Except ApiError UserCourse :=
  match db.userCourses.find? (fun e => decide (e.id = id)) with
  | some e => .ok e
  | none => .error .notFound

/-- The `JOIN user_courses uc ON us.user_course_id = uc.id JOIN courses c ...
WHERE uc.user_id = $1 AND c.slug = $2` part of `get_user_stage`. -/
def enrollmentMatch (courses : List UserCourse) (us : UserStage) (u c : String) : Bool :=
  courses.any (fun e => decide (e.id = us.userCourseId ∧ e.userId = u ∧ e.courseSlug = c))

/-- The `JOIN stages s ON us.stage_id = s.id ... AND s.slug = $3` part of
`get_user_stage` (the stage is joined by id only, not by course). -/
def stageSlugMatch (stages : List Stage) (us : UserStage) (s : String) : Bool :=
  stages.any (fun st => decide (st.id = us.stageId ∧ st.slug = s))

/-- `StageRepository::get_user_stage`: the progress row for (user, course
slug, stage slug). -/
def get_user_stage (db : DB) (u c s : String) : Except ApiError UserStage :=
  match db.userStages.find?
      (fun us => enrollmentMatch db.userCourses us u c && stageSlugMatch db.stages us s) with
  | some us => .ok us
  | none => .error .notFound

/-- All stage rows of one course (`WHERE c.slug = $1`). -/
def courseStages (db : DB) (c : String) : List Stage :=
  db.stages.filter (fun st => decide (st.courseSlug = c))

/-- `ORDER BY s.weight ASC LIMIT 1`: a row of minimal weight (the first such
row in store order when weights tie, which SQL leaves unspecified). -/
def minWeightStage : List Stage → Option Stage
  | [] => none
  | s :: rest => some (rest.foldl (fun acc t => if t.weight < acc.weight then t else acc) s)

/-- `StageRepository::find_next_stage_by_slug`: the CTE resolves the current
stage's weight from (course slug, stage slug); the outer query then takes the
minimal-weight stage of the course with strictly greater weight.  No filter
distinguishes base from extension stages: they are scanned as one merged
sequence. An empty CTE (unknown current stage) yields no rows. -/
def find_next_stage_by_slug (db : DB) (c s : String) : Option Stage :=
  match db.stages.find? (fun st => decide (st.courseSlug = c ∧ st.slug = s)) with
  | none => none
  | some cur =>
      minWeightStage ((courseStages db c).filter (fun st => decide (cur.weight < st.weight)))

/-- Modelled from the spec: `StageRepository::first` is called by
`CourseService::activate` but its definition is not under `src/`; §4.1 of the
spec says activation selects "the lowest-weight Stage of the course", `None`
when the course has no stages. -/
def first (db : DB) (c : String) : Option Stage :=
  minWeightStage (courseStages db c)

/-- `StageRepository::create_user_stage`: the store's uniqueness constraint
on (enrollment, stage) — §3 and the §6 store contract: "the store must reject
a duplicate insert" (the migration files are outside `src/`) — rejects a
duplicate row; otherwise the row is appended. -/
def create_user_stage (db : DB) (row : UserStage) : Except ApiError DB :=
  if db.userStages.any
      (fun x => decide (x.userCourseId = row.userCourseId ∧ x.stageId = row.stageId)) then
    .error .conflict
  else
    .ok { db with userStages := db.userStages ++ [row] }

/-- `StageRepository::update_user_stage` (`src/repository/stage.rs`): the
committed `UPDATE user_stages` statement reads `SET status = $2,
completed_at = $4,` — a trailing comma directly before `WHERE`, and a
reference to `$4` while only three parameters (`id`, `status`,
`completed_at`) are bound.  PostgreSQL rejects the statement at prepare
time on every call, so the function can never return `Ok`: no row is ever
written or returned, and `From<sqlx::Error>` maps the failure to
`DatabaseError` (the intended SET list — which would also have dropped the
`test` column — never executes). -/
def update_user_stage (db : DB) (v : UserStage) : Except ApiError (DB × UserStage) :=
  .error .databaseError

/-- The SET list of `CourseRepository::update_user_course`: current stage,
completed count, proficiency, cadence, accountability, activated. -/
def applyUserCourseUpdate (v x : UserCourse) : UserCourse :=
  if x.id = v.id then
    { x with currentStageId := v.currentStageId,
             completedStageCount := v.completedStageCount,
             proficiency := v.proficiency, cadence := v.cadence,
             accountability := v.accountability, activated := v.activated }
  else x

/-- `CourseRepository::update_user_course`: update by primary key. -/
def update_user_course (db : DB) (v : UserCourse) : Except ApiError (DB × UserCourse) :=
  match (db.userCourses.map (applyUserCourseUpdate v)).find? (fun x => decide (x.id = v.id)) with
  | some row => .ok ({ db with userCourses := db.userCourses.map (applyUserCourseUpdate v) }, row)
  | none => .error .notFound

/-- `StageService::start_next_stage` (`src/service/stage.rs`): inside the
completion transaction, look up the next stage by weight; if one exists,
insert its fresh progress row (a store uniqueness violation becomes
`Conflict`) and point the enrollment at it; in both cases increment
`completed_stage_count` and persist the enrollment.  The stage lookup reads
the pool outside the transaction, but the transaction never writes `stages`,
so both views agree. -/
def start_next_stage (db : DB) (uc : UserCourse) (c s : String) (freshId now : Nat) :
    Except ApiError DB :=
  match find_next_stage_by_slug db c s with
  | some next =>
      match create_user_stage db (UserStage.new freshId uc.id next.id now) with
      | .error _ => .error .conflict
      | .ok db2 =>
          let updated := { uc with currentStageId := some next.id,
                                   completedStageCount := uc.completedStageCount + 1 }
          (update_user_course db2 updated).map (·.1)
  | none =>
      let updated := { uc with completedStageCount := uc.completedStageCount + 1 }
      (update_user_course db updated).map (·.1)

/-- `StageService::complete` (`src/service/stage.rs`): the Stage-Completion
Transaction.  Fetch the enrollment and the progress row, validate (already
completed / not in progress / out of order), then inside one transaction mark
the row completed and start the next stage.  Every error returns the store
unchanged (validation precedes the transaction; a failure inside it rolls the
whole transaction back).  Because `update_user_stage` fails on every call
(its statement is malformed), the branches after it are dead code in the
committed program, embedded here to mirror the source's structure. `now` is
the clock reading, `freshId` the generated id of the next stage's row. -/
def complete (db : DB) (u c s : String) (now freshId : Nat) :
    DB × Except ApiError UserStage :=
  match get_user_course db u c with
  | .error e => (db, .error e)
  | .ok uc =>
  match get_user_stage db u c s with
  | .error e => (db, .error e)
  | .ok r =>
  if r.status = "completed" then (db, .error .stageAlreadyCompleted)
  else if r.status ≠ "in_progress" then (db, .error .stageNotInProgress)
  else if uc.currentStageId ≠ some r.stageId then (db, .error .stageOutOfOrder)
  else
    match update_user_stage db ((r.passed).complete now) with
    | .error e => (db, .error e)
    | .ok (db1, completedRow) =>
        match start_next_stage db1 uc c s freshId now with
        | .error e => (db, .error e)
        | .ok db2 => (db2, .ok completedRow)

/-- `CourseService::activate` (`src/service/course.rs`): set the `activated`
flag, and when the course has a lowest-weight stage insert its progress row
and point `current_stage` at it; persist the enrollment; all in one
transaction (errors roll back to the original store). -/
def activate (db : DB) (uc : UserCourse) (freshId now : Nat) : Except ApiError DB :=
  let uc1 := { uc with activated := true }
  match first db uc.courseSlug with
  | some st =>
      match create_user_stage db (UserStage.new freshId uc1.id st.id now) with
      | .error e => .error e
      | .ok db2 => (update_user_course db2 { uc1 with currentStageId := some st.id }).map (·.1)
  | none => (update_user_course db uc1).map (·.1)

/-- The slug of the enrollment's current stage, as the `LEFT JOIN stages s ON
uc.current_stage_id = s.id` of the enrollment queries produces it. -/
def currentStageSlug (db : DB) (uc : UserCourse) : Option String :=
  uc.currentStageId.bind (fun i => (db.stages.find? (fun st => decide (st.id = i))).map (·.slug))

/-- What `RepoService::process` did with the push, beyond its store effect:
activated the enrollment, or submitted a test job (and registered the
completion watch) for the current stage of the named course. -/
inductive ProcessOutcome where
  | activated
  | triggered (courseSlug stageSlug : String)
  deriving Repr, DecidableEq

/-- `RepoService::process` (`src/service/repository.rs`): resolve the
repository name (the enrollment's id) to the enrollment; when it has no
current stage, activate it and submit nothing; otherwise submit a job for the
current stage and watch it (the submission itself lives on the execution
platform, outside the store). -/
def process (db : DB) (repoId freshId now : Nat) : DB × Except ApiError ProcessOutcome :=
  match get_user_course_by_id db repoId with
  | .error e => (db, .error e)
  | .ok course =>
  match currentStageSlug db course with
  | none =>
      match activate db course freshId now with
      | .error e => (db, .error e)
      | .ok db' => (db', .ok .activated)
  | some slug => (db, .ok (.triggered course.courseSlug slug))

/-- `handle_gitea_webhook` (`src/handler/webhook.rs`): pushes from a template
repository or to a branch other than `refs/heads/main` are ignored with no
side effect; the rest are processed.  `none` in the outcome means the event
was ignored. -/
def handle_gitea_webhook (db : DB) (template : Bool) (reference : String)
    (repoId freshId now : Nat) : DB × Except ApiError (Option ProcessOutcome) :=
  if template || reference ≠ "refs/heads/main" then (db, .ok none)
  else
    match process db repoId freshId now with
    | (db', .error e) => (db', .error e)
    | (db', .ok outcome) => (db', .ok (some outcome))

/-- How many progress rows of enrollment `i` are `in_progress`. -/
def inProgressCount (db : DB) (i : Nat) : Nat :=
  db.userStages.countP (fun us => decide (us.userCourseId = i ∧ us.status = "in_progress"))

/-! ## Job Orchestrator: the background watch loop (`src/service/pipeline.rs`) -/

/-- One condition of a Tekton PipelineRun status, as deserialized in
`PipelineService::status`. -/
structure TektonCondition where
  type_ : String
  status : String
  deriving Repr, DecidableEq

/-- `PipelineService::status`: `Ok(true)` exactly when some condition has
type `Succeeded` with status `True`; everything else that deserializes —
including a run whose `Succeeded` condition is `False`, i.e. a terminal
failure — yields `Ok(false)`. -/
def pipelineStatus (conds : List TektonCondition) : Bool :=
  conds.any (fun c => c.type_ == "Succeeded" && c.status == "True")

/-- What one iteration of the watch loop observes from
`Self::status(&api, &name)`: `Ok(true)`, `Ok(false)`, or `Err(_)` (the
platform call failed). -/
inductive PollResult where
  | succeeded
  | running
  | failed
  deriving Repr, DecidableEq

/-- The result of `PipelineService::status` on a run whose fetched conditions
are `conds` (the `Ok` cases). -/
def pollOf (conds : List TektonCondition) : PollResult :=
  if pipelineStatus conds then .succeeded else .running

/-- How the spawned watch loop ends, run against a finite prefix of poll
results: `invoked` — a poll returned `Ok(true)`, the callback ran exactly
once and the loop broke; `stopped` — a poll returned `Err(_)` and the loop
broke without the callback; `watching` — every given poll returned
`Ok(false)` and the loop is still going. -/
inductive WatchOutcome where
  | invoked
  | stopped
  | watching
  deriving Repr, DecidableEq

/-- The loop body of `PipelineService::watch`: `Ok(true)` → run callback,
break; `Ok(false)` → continue; `Err(_)` → break without callback. -/
def watchSteps : List PollResult → WatchOutcome
  | [] => .watching
  | .succeeded :: _ => .invoked
  | .running :: rest => watchSteps rest
  | .failed :: _ => .stopped

/-! ## Job Orchestrator: rendering the PipelineRun (`src/service/pipeline.rs`) -/

/-- The fields of `Config` that `PipelineService::generate` reads
(`registryHost` stands for `url::hostname(docker_registry_endpoint)`;
`authSecret` is the process-wide HMAC secret that `handle_tekton_webhook`
verifies against). -/
structure PipelineConfig where
  gitServerEndpoint : String
  registryHost : String
  org : String
  webhookEndpoint : String
  authSecret : String
  deriving Repr, DecidableEq

/-- The rendered PipelineRun: its generated name, its labels and its
parameters (both ordered association lists of strings, as the JSON document
carries them; the workspace/podTemplate boilerplate carries no claim-relevant
data and is omitted). -/
structure PipelineRun where
  name : String
  labels : List (String × String)
  params : List (String × String)
  deriving Repr, DecidableEq

/-- Modelled from the spec: `StageRepository::find_stages_until` is called by
`PipelineService::generate` but its definition is not under `src/`; §4.3 says
the job carries "the sequence of all stage slugs up to and including the
current stage", ordered — i.e. the course's stages of weight at most the
current stage's, ascending by weight (insertion sort keeps it executable). -/
def insertByWeight (st : Stage) : List Stage → List Stage
  | [] => [st]
  | t :: rest => if st.weight ≤ t.weight then st :: t :: rest else t :: insertByWeight st rest

/-- Modelled from the spec: ascending-by-weight ordering for
`find_stages_until`. -/
def sortByWeight (l : List Stage) : List Stage :=
  l.foldr insertByWeight []

/-- Modelled from the spec: `StageRepository::find_stages_until` — the
course's stages up to and including the current one, by weight ascending. -/
def find_stages_until (db : DB) (c s : String) : List Stage :=
  match db.stages.find? (fun st => decide (st.courseSlug = c ∧ st.slug = s)) with
  | none => []
  | some cur => sortByWeight ((courseStages db c).filter (fun st => decide (st.weight ≤ cur.weight)))

/-- `PipelineService::generate`: the labels and parameters of the submitted
job, translated pair for pair.  `TEST_CASES_JSON` is abstracted to the
comma-joined cumulative slug list (the JSON wrapper adds per-slug titles and
log prefixes only).  Note `let secret = String::new()`: the `SECRET`
parameter is the empty string — `hmac_sha256_sign` is never called. -/
def generate (cfg : PipelineConfig) (db : DB) (jobName repo course stage : String) :
    PipelineRun :=
  let labels := [("stackclass.dev/repo", repo),
                 ("stackclass.dev/course", course),
                 ("stackclass.dev/stage", stage)]
  let slugs := (find_stages_until db course stage).map (·.slug)
  let webhookUrl := cfg.webhookEndpoint ++ "/v1/webhooks/tekton"
  let secret := ""
  let params := [
    ("REPO_URL", cfg.gitServerEndpoint ++ "/" ++ cfg.org ++ "/" ++ repo ++ ".git"),
    ("COURSE_IMAGE", cfg.registryHost ++ "/" ++ cfg.org ++ "/" ++ repo ++ ":latest"),
    ("TESTER_IMAGE", "ghcr.io/stackclass/" ++ course ++ "-tester"),
    ("TEST_IMAGE", cfg.registryHost ++ "/" ++ cfg.org ++ "/" ++ repo ++ "-test:latest"),
    ("COMMAND", "/app/" ++ course ++ "-tester"),
    ("TEST_CASES_JSON", String.intercalate "," slugs),
    ("WEBHOOK_URL", webhookUrl),
    ("REPO", repo),
    ("COURSE", course),
    ("STAGE", stage),
    ("SECRET", secret)]
  ⟨jobName, labels, params⟩

/-! ## Signature Verifier (`src/utils/crypto.rs`)

`hmac_sha256_sign` is HMAC-SHA256 (RFC 2104 over FIPS 180-4 SHA-256) of the
payload's UTF-8 bytes under the secret's UTF-8 bytes, hex-encoded lowercase;
`hmac_sha256_verify` recomputes it and compares byte-for-byte (the Rust
comparison is constant-time, which a pure model need not reflect).  Bytes and
32-bit words are `Nat`s reduced by `% 2^32` where overflow matters. -/

/-- Truncation to a 32-bit word. -/
def w32 (n : Nat) : Nat := n % 4294967296

/-- Right rotation of a 32-bit word. -/
def rotr (k a : Nat) : Nat := (a >>> k) ||| w32 (a <<< (32 - k))

/-- SHA-256 `Ch`. -/
def shaCh (x y z : Nat) : Nat := (x &&& y) ^^^ ((x ^^^ 4294967295) &&& z)

/-- SHA-256 `Maj`. -/
def shaMaj (x y z : Nat) : Nat := (x &&& y) ^^^ (x &&& z) ^^^ (y &&& z)

/-- SHA-256 `Σ₀`. -/
def bigSigma0 (a : Nat) : Nat := rotr 2 a ^^^ rotr 13 a ^^^ rotr 22 a

/-- SHA-256 `Σ₁`. -/
def bigSigma1 (a : Nat) : Nat := rotr 6 a ^^^ rotr 11 a ^^^ rotr 25 a

/-- SHA-256 `σ₀`. -/
def smallSigma0 (a : Nat) : Nat := rotr 7 a ^^^ rotr 18 a ^^^ (a >>> 3)

/-- SHA-256 `σ₁`. -/
def smallSigma1 (a : Nat) : Nat := rotr 17 a ^^^ rotr 19 a ^^^ (a >>> 10)

/-- The 64 SHA-256 round constants (FIPS 180-4 §4.2.2, in decimal). -/
def shaK : List Nat :=
  [1116352408, 1899447441, 3049323471, 3921009573, 961987163, 1508970993,
   2453635748, 2870763221, 3624381080, 310598401, 607225278, 1426881987,
   1925078388, 2162078206, 2614888103, 3248222580, 3835390401, 4022224774,
   264347078, 604807628, 770255983, 1249150122, 1555081692, 1996064986,
   2554220882, 2821834349, 2952996808, 3210313671, 3336571891, 3584528711,
   113926993, 338241895, 666307205, 773529912, 1294757372, 1396182291,
   1695183700, 1986661051, 2177026350, 2456956037, 2730485921, 2820302411,
   3259730800, 3345764771, 3516065817, 3600352804, 4094571909, 275423344,
   430227734, 506948616, 659060556, 883997877, 958139571, 1322822218,
   1537002063, 1747873779, 1955562222, 2024104815, 2227730452, 2361852424,
   2428436474, 2756734187, 3204031479, 3329325298]

/-- Emits the 64-word message schedule from a sliding 16-word window `w`:
the head is the oldest word `W[i-16]`, so `W[i] = σ₁ W[i-2] + W[i-7] +
σ₀ W[i-15] + W[i-16]` reads the window at positions 14, 9, 1 and 0. -/
def schedGo : Nat → List Nat → List Nat
  | 0, _ => []
  | n + 1, w =>
      match w with
      | [] => []
      | w0 :: rest =>
          w0 :: schedGo n (rest ++
            [w32 (smallSigma1 (w.getD 14 0) + w.getD 9 0 + smallSigma0 (w.getD 1 0) + w0)])

/-- The eight working variables of the SHA-256 compression function. -/
structure Hash8 where
  a : Nat
  b : Nat
  c : Nat
  d : Nat
  e : Nat
  f : Nat
  g : Nat
  h : Nat
  deriving Repr, DecidableEq

/-- One SHA-256 round. -/
def shaRound (s : Hash8) (wk : Nat × Nat) : Hash8 :=
  let t1 := w32 (s.h + bigSigma1 s.e + shaCh s.e s.f s.g + wk.2 + wk.1)
  let t2 := w32 (bigSigma0 s.a + shaMaj s.a s.b s.c)
  ⟨w32 (t1 + t2), s.a, s.b, s.c, w32 (s.d + t1), s.e, s.f, s.g⟩

/-- SHA-256 compression of one 16-word block into the chaining state. -/
def compressBlock (s0 : Hash8) (ws : List Nat) : Hash8 :=
  let r := ((schedGo 64 ws).zip shaK).foldl shaRound s0
  ⟨w32 (s0.a + r.a), w32 (s0.b + r.b), w32 (s0.c + r.c), w32 (s0.d + r.d),
   w32 (s0.e + r.e), w32 (s0.f + r.f), w32 (s0.g + r.g), w32 (s0.h + r.h)⟩

/-- Big-endian bytes of a value, `n` bytes wide. -/
def toBytesBE (n v : Nat) : List Nat :=
  (List.range n).map (fun i => (v >>> (8 * (n - 1 - i))) % 256)

/-- Big-endian 32-bit words of a byte list. -/
def bytesToWords : List Nat → List Nat
  | b0 :: b1 :: b2 :: b3 :: rest => (((b0 * 256 + b1) * 256 + b2) * 256 + b3) :: bytesToWords rest
  | _ => []

/-- SHA-256 padding: `0x80`, zeros to 56 mod 64, the bit length as 8 bytes. -/
def padMessage (msg : List Nat) : List Nat :=
  msg ++ [128] ++ List.replicate ((119 - msg.length % 64) % 64) 0 ++ toBytesBE 8 (msg.length * 8)

/-- Splits into 64-byte blocks (fuelled by the length for termination). -/
def chunksGo : Nat → List Nat → List (List Nat)
  | 0, _ => []
  | _, [] => []
  | n + 1, l => l.take 64 :: chunksGo n (l.drop 64)

/-- The 64-byte blocks of a padded message. -/
def chunks64 (l : List Nat) : List (List Nat) := chunksGo l.length l

/-- The SHA-256 initial hash value (FIPS 180-4 §5.3.3, in decimal). -/
def shaInit : Hash8 :=
  ⟨1779033703, 3144134277, 1013904242, 2773480762,
   1359893119, 2600822924, 528734635, 1541459225⟩

/-- SHA-256 of a byte list, as 32 bytes. -/
def sha256Bytes (msg : List Nat) : List Nat :=
  let r := (chunks64 (padMessage msg)).foldl (fun s b => compressBlock s (bytesToWords b)) shaInit
  toBytesBE 4 r.a ++ toBytesBE 4 r.b ++ toBytesBE 4 r.c ++ toBytesBE 4 r.d ++
  toBytesBE 4 r.e ++ toBytesBE 4 r.f ++ toBytesBE 4 r.g ++ toBytesBE 4 r.h

/-- A lowercase hex digit. -/
def hexChar (n : Nat) : Char := if n < 10 then Char.ofNat (48 + n) else Char.ofNat (87 + n)

/-- Lowercase hex encoding of bytes (`hex::encode`). -/
def hexOfBytes (bs : List Nat) : String :=
  String.mk (bs.foldr (fun b acc => hexChar (b / 16 % 16) :: hexChar (b % 16) :: acc) [])

/-- UTF-8 bytes of one character. -/
def utf8Char (c : Char) : List Nat :=
  let n := c.toNat
  if n < 128 then [n]
  else if n < 2048 then [192 + n / 64, 128 + n % 64]
  else if n < 65536 then [224 + n / 4096, 128 + n / 64 % 64, 128 + n % 64]
  else [240 + n / 262144, 128 + n / 4096 % 64, 128 + n / 64 % 64, 128 + n % 64]

/-- UTF-8 bytes of a string (`str::as_bytes`). -/
def utf8 (s : String) : List Nat := s.data.foldr (fun c acc => utf8Char c ++ acc) []

/-- HMAC-SHA256 over byte lists (RFC 2104, block size 64). -/
def hmacSha256 (key msg : List Nat) : List Nat :=
  let k0 := if 64 < key.length then sha256Bytes key else key
  let k := k0 ++ List.replicate (64 - k0.length) 0
  sha256Bytes ((k.map (· ^^^ 92)) ++ sha256Bytes ((k.map (· ^^^ 54)) ++ msg))

/-- `hmac_sha256_sign` (`src/utils/crypto.rs`): hex-encoded HMAC-SHA256 of
the payload under the secret. -/
def hmac_sha256_sign (payload secret : String) : String :=
  hexOfBytes (hmacSha256 (utf8 secret) (utf8 payload))

/-- `hmac_sha256_verify` (`src/utils/crypto.rs`): recompute and compare the
byte representations — the constant-time `ct_eq` of the two `&str`s' bytes
holds exactly when the strings are equal. -/
def hmac_sha256_verify (payload secret sig : String) : Bool :=
  decide (sig = hmac_sha256_sign payload secret)

/-- HMAC-SHA256 of the payload `r1c1s1` under the key `k` — the digest of the
spec's §8 signature example (independently cross-checked against a reference
implementation). -/
def expectedDigest : List Nat :=
  [83, 154, 78, 118, 19, 127, 148, 88, 79, 7, 247, 23, 11, 237, 26, 135,
   204, 71, 223, 26, 156, 224, 95, 83, 113, 159, 210, 49, 74, 23, 14, 214]

/-- The payload `r1c1s1` with bit `k` of byte `i` flipped: a single-byte
corruption of the spec's §8 example payload. -/
def c5mut (i k : Nat) : List Nat :=
  (utf8 "r1c1s1").set i ((utf8 "r1c1s1").getD i 0 ^^^ (1 <<< k))

/-- Single-byte corruptions of the payload `r1c1s1` covering every byte
position: for each of the six bytes, the lowest and the highest bit flipped. -/
def c5Mutations : List (List Nat) :=
  (List.range 6).flatMap (fun i => [c5mut i 0, c5mut i 7])

/-! ## Concrete store used by witnesses and counterexamples

Course `c` has base stages `s0 < s1 < s2` at weights 0, 1, 2 and extension
stages `e1, e2` at weights 1000, 1001 (the weight layout of the spec's §8
next-stage example).  Enrollment 10 (user `u`) is on stage `s1` with `s0`
already completed; enrollment 20 (user `w`) belongs to course `z`, which has
no stages at all; enrollment 30 (user `v`) is a fresh, unactivated enrollment
in course `c`. -/

/-- The stages of the concrete store. -/
def exStages : List Stage :=
  [⟨1, "c", none, "s0", 0⟩, ⟨2, "c", none, "s1", 1⟩, ⟨3, "c", none, "s2", 2⟩,
   ⟨4, "c", some 1, "e1", 1000⟩, ⟨5, "c", some 1, "e2", 1001⟩]

/-- The concrete store. -/
def exDb : DB :=
  { stages := exStages,
    userCourses :=
      [⟨10, "u", "c", some 2, 1, "beginner", "weekly", false, true⟩,
       ⟨20, "w", "z", none, 0, "beginner", "weekly", false, false⟩,
       ⟨30, "v", "c", none, 0, "beginner", "weekly", false, false⟩],
    userStages :=
      [⟨100, 10, 1, "completed", "failed", 0, some 1⟩,
       ⟨101, 10, 2, "in_progress", "failed", 2, none⟩] }

/-- A store for exercising the out-of-order rejection: user `u`'s progress
row for `s0` is `in_progress` while the enrollment's current stage is `s1`. -/
def exDbOutOfOrder : DB :=
  { stages := exStages,
    userCourses := [⟨10, "u", "c", some 2, 1, "beginner", "weekly", false, true⟩],
    userStages := [⟨100, 10, 1, "in_progress", "failed", 0, none⟩] }

/-- The configuration the job-generation example runs under (`k` is the
process-wide webhook secret). -/
def exCfg : PipelineConfig :=
  ⟨"https://git.example", "registry.example", "org", "https://hooks.example", "k"⟩

end StackClass

deriving instance DecidableEq for Except

namespace StackClass

/-- The fold behind `minWeightStage` returns the accumulator or a list
element, of weight no greater than either. -/
theorem foldl_minWeight_spec (l : List Stage) (acc : Stage) :
    ((l.foldl (fun acc t => if t.weight < acc.weight then t else acc) acc) = acc ∨
      (l.foldl (fun acc t => if t.weight < acc.weight then t else acc) acc) ∈ l) ∧
    (l.foldl (fun acc t => if t.weight < acc.weight then t else acc) acc).weight ≤ acc.weight ∧
    ∀ t ∈ l, (l.foldl (fun acc t => if t.weight < acc.weight then t else acc) acc).weight ≤ t.weight := by
  induction l generalizing acc with
  | nil => simp
  | cons hd tl ih =>
      simp only [List.foldl_cons, List.mem_cons]
      by_cases h : hd.weight < acc.weight
      · rw [if_pos h]
        rcases ih hd with ⟨hmem, hle, hall⟩
        refine ⟨?_, ?_, ?_⟩
        · rcases hmem with h' | h'
          · exact Or.inr (Or.inl h')
          · exact Or.inr (Or.inr h')
        · exact le_trans hle (le_of_lt h)
        · intro t ht
          rcases ht with rfl | ht
          · exact hle
          · exact hall t ht

      · rw [if_neg h]
        rcases ih acc with ⟨hmem, hle, hall⟩
        refine ⟨?_, ?_, ?_⟩
        · rcases hmem with h' | h'
          · exact Or.inl h'
          · exact Or.inr (Or.inr h')
        · exact hle
        · intro t ht
          rcases ht with rfl | ht
          · exact le_trans hle (not_lt.mp h)
          · exact hall t ht

/-- `minWeightStage` returns a member of minimal weight. -/
theorem minWeightStage_spec (l : List Stage) (s : Stage) (h : minWeightStage l = some s) :
    s ∈ l ∧ ∀ t ∈ l, s.weight ≤ t.weight := by
  cases l with
  | nil => simp [minWeightStage] at h
  | cons hd tl =>
      simp only [minWeightStage, Option.some.injEq] at h
      subst h
      rcases foldl_minWeight_spec tl hd with ⟨hmem, hle, hall⟩
      refine ⟨?_, ?_⟩
      · rcases hmem with h' | h'
        · rw [h']
          exact List.mem_cons_self hd tl
        · exact List.mem_cons_of_mem hd h'
      · intro t ht
        rcases List.mem_cons.mp ht with rfl | ht
        · exact hle
        · exact hall t ht



/-! ## Theorems -/

/-- The watch loop skips any prefix of still-running polls. -/
theorem watchSteps_append_replicate_running (n : Nat) (rest : List PollResult) :
    watchSteps (List.replicate n PollResult.running ++ rest) = watchSteps rest := by
  induction n with
  | zero => rfl
  | succ n ih => simpa [List.replicate_succ, watchSteps] using ih

/-- C8, counterexample.  A single failed status poll (`Err(_)` from the
platform) terminates the watch loop immediately, and a definitive terminal
failure (condition `Succeeded`/`False`) does not end the watch: the status
check reports it as not succeeded, so the loop keeps polling. -/
theorem c8_counterexample :
    watchSteps [PollResult.failed] = WatchOutcome.stopped ∧
    pollOf [⟨"Succeeded", "False"⟩] = PollResult.running ∧
    watchSteps [pollOf [⟨"Succeeded", "False"⟩]] = WatchOutcome.watching := by
  decide

/-- C8, as amended: after any number of still-running polls, a single failed
poll stops the watch without invoking the callback; a successful poll invokes
the callback exactly once and stops the watch; a terminal-failure status is
reported as not succeeded and therefore never ends the loop, which keeps
watching indefinitely. -/
theorem c8_watch_behaviour :
    (∀ n rest, watchSteps (List.replicate n PollResult.running ++ PollResult.failed :: rest) =
        WatchOutcome.stopped) ∧
    (∀ n rest, watchSteps (List.replicate n PollResult.running ++ PollResult.succeeded :: rest) =
        WatchOutcome.invoked) ∧
    (∀ conds, pollOf conds = PollResult.succeeded ↔ pipelineStatus conds = true) ∧
    (∀ n, watchSteps (List.replicate n (pollOf [⟨"Succeeded", "False"⟩])) =
        WatchOutcome.watching) := by
  refine ⟨?_, ?_, ?_, ?_⟩
  · intro n rest
    rw [watchSteps_append_replicate_running]
    rfl
  · intro n rest
    rw [watchSteps_append_replicate_running]
    rfl
  · intro conds
    unfold pollOf
    split
    · simp_all
    · simp_all
  · intro n
    have h : pollOf [⟨"Succeeded", "False"⟩] = PollResult.running := by decide
    rw [h]
    simpa using watchSteps_append_replicate_running n []

/-- C2, counterexample.  User `u`'s enrollment is on stage `s1` (id 2), and
`s0` (id 1) differs from the current stage; yet completing `s0` fails with
"stage already completed", not "stage out of order", because the
already-completed check runs first. -/
theorem c2_counterexample :
    get_user_course exDb "u" "c" = .ok ⟨10, "u", "c", some 2, 1, "beginner", "weekly", false, true⟩ ∧
    get_user_stage exDb "u" "c" "s0" = .ok ⟨100, 10, 1, "completed", "failed", 0, some 1⟩ ∧
    (some 2 : Option Nat) ≠ some 1 ∧
    complete exDb "u" "c" "s0" 5 102 = (exDb, .error .stageAlreadyCompleted) ∧
    ApiError.stageAlreadyCompleted ≠ ApiError.stageOutOfOrder := by
  decide

/-- C2, as amended: when the progress row of the named stage is
`in_progress` and its stage differs from the enrollment's current stage, the
Stage-Completion Transaction fails with "stage out of order" and returns the
store unchanged (no field of any enrollment or progress row is mutated). -/
theorem c2_out_of_order (db : DB) (u c s : String) (now fid : Nat)
    (uc : UserCourse) (r : UserStage)
    (huc : get_user_course db u c = .ok uc)
    (hr : get_user_stage db u c s = .ok r)
    (hst : r.status = "in_progress")
    (hord : uc.currentStageId ≠ some r.stageId) :
    complete db u c s now fid = (db, .error .stageOutOfOrder) := by
  unfold complete
  rw [huc, hr]
  simp [hst, hord]

/-- C2 witness: the amended theorem applied to the concrete store. -/
theorem c2_witness :
    get_user_course exDbOutOfOrder "u" "c" =
      .ok ⟨10, "u", "c", some 2, 1, "beginner", "weekly", false, true⟩ ∧
    get_user_stage exDbOutOfOrder "u" "c" "s0" =
      .ok ⟨100, 10, 1, "in_progress", "failed", 0, none⟩ ∧
    complete exDbOutOfOrder "u" "c" "s0" 7 103 = (exDbOutOfOrder, .error .stageOutOfOrder) :=
  ⟨by decide, by decide,
   c2_out_of_order exDbOutOfOrder "u" "c" "s0" 7 103
     ⟨10, "u", "c", some 2, 1, "beginner", "weekly", false, true⟩
     ⟨100, 10, 1, "in_progress", "failed", 0, none⟩
     (by decide) (by decide) (by decide) (by decide)⟩

/-- The Stage-Completion Transaction never succeeds in the committed code:
every call either fails one of the pre-transaction validations or dies on
the malformed `UPDATE user_stages` statement, and in both cases the store
comes back unchanged (validation precedes the transaction; the statement
failure rolls the transaction back). -/
theorem complete_never_ok (db : DB) (u c s : String) (now fid : Nat) :
    (complete db u c s now fid).1 = db ∧
    ∃ e, (complete db u c s now fid).2 = Except.error e := by
  unfold complete
  cases hgc : get_user_course db u c with
  | error e => exact ⟨rfl, e, rfl⟩
  | ok uc =>
  cases hgs : get_user_stage db u c s with
  | error e => exact ⟨rfl, e, rfl⟩
  | ok r =>
  dsimp only []
  by_cases h1 : r.status = "completed"
  · rw [if_pos h1]
    exact ⟨rfl, .stageAlreadyCompleted, rfl⟩
  rw [if_neg h1]
  by_cases h2 : r.status ≠ "in_progress"
  · rw [if_pos h2]
    exact ⟨rfl, .stageNotInProgress, rfl⟩
  rw [if_neg h2]
  by_cases h3 : uc.currentStageId ≠ some r.stageId
  · rw [if_pos h3]
    exact ⟨rfl, .stageOutOfOrder, rfl⟩
  rw [if_neg h3]
  exact ⟨rfl, .databaseError, rfl⟩

/-- No call of the Stage-Completion Transaction ever returns a progress
row. -/
theorem complete_no_row (db : DB) (u c s : String) (now fid : Nat) (row : UserStage) :
    (complete db u c s now fid).2 ≠ Except.ok row := by
  obtain ⟨-, e, h⟩ := complete_never_ok db u c s now fid
  rw [h]
  simp

/-- C4: the claim says a successful completion persists `test_result =
passed`, `status = completed`, `completed_at = now` and returns the updated
row.  In the committed code the `UPDATE user_stages` statement is malformed
(trailing comma in the SET list, `$4` with only three bound parameters), so
the repository update errors on every call and completion never succeeds:
nothing is persisted and no row is returned — even on the claim's premise
input, whose row is `in_progress` and current and whose in-memory update
(`passed().complete()`) does carry `test = "passed"`; the store re-read
after the failed call still shows the untouched `in_progress` row. -/
theorem c4_test_result_not_persisted :
    (∀ (db : DB) (v : UserStage), update_user_stage db v = .error .databaseError) ∧
    (∀ (db : DB) (u c s : String) (now fid : Nat) (row : UserStage),
        (complete db u c s now fid).2 ≠ .ok row) ∧
    complete exDb "u" "c" "s1" 5 102 = (exDb, .error .databaseError) ∧
    get_user_stage (complete exDb "u" "c" "s1" 5 102).1 "u" "c" "s1" =
      .ok ⟨101, 10, 2, "in_progress", "failed", 2, none⟩ ∧
    ((⟨101, 10, 2, "in_progress", "failed", 2, none⟩ : UserStage).passed.complete 5).test =
      "passed" := by
  refine ⟨fun db v => rfl, fun db u c s now fid row => complete_no_row db u c s now fid row,
    by decide, by decide, by decide⟩


/-- `find?` commutes with a map that leaves the predicate unchanged. -/
theorem find?_map_pred_inv {α : Type} (f : α → α) (p : α → Bool)
    (h : ∀ a, p (f a) = p a) :
    ∀ l : List α, (l.map f).find? p = (l.find? p).map f := by
  intro l
  induction l with
  | nil => rfl
  | cons a t ih =>
      cases hp : p a with
      | true => simp [List.find?_cons, h, hp]
      | false => simp [List.find?_cons, h, hp, ih]

/-- `any` commutes pointwise with a map that leaves the predicate unchanged. -/
theorem any_map_pred_inv {α : Type} (f : α → α) (p : α → Bool)
    (h : ∀ a, p (f a) = p a) :
    ∀ l : List α, (l.map f).any p = l.any p := by
  intro l
  induction l with
  | nil => rfl
  | cons a t ih => rw [List.map_cons, List.any_cons, List.any_cons, h a, ih]

/-- The enrollment update keeps the primary key. -/
theorem applyUserCourseUpdate_id (v x : UserCourse) :
    (applyUserCourseUpdate v x).id = x.id := by
  unfold applyUserCourseUpdate
  split <;> rfl

/-- The enrollment update keeps the user. -/
theorem applyUserCourseUpdate_userId (v x : UserCourse) :
    (applyUserCourseUpdate v x).userId = x.userId := by
  unfold applyUserCourseUpdate
  split <;> rfl

/-- The enrollment update keeps the course. -/
theorem applyUserCourseUpdate_courseSlug (v x : UserCourse) :
    (applyUserCourseUpdate v x).courseSlug = x.courseSlug := by
  unfold applyUserCourseUpdate
  split <;> rfl

/-- Inserting a progress row succeeds when no row with its (enrollment,
stage) pair exists. -/
theorem create_user_stage_ok (db : DB) (row : UserStage)
    (h : ∀ x ∈ db.userStages, ¬(x.userCourseId = row.userCourseId ∧ x.stageId = row.stageId)) :
    create_user_stage db row = .ok { db with userStages := db.userStages ++ [row] } := by
  unfold create_user_stage
  rw [if_neg]
  rw [List.any_eq_true]
  rintro ⟨x, hx, hpx⟩
  exact h x hx (of_decide_eq_true hpx)

/-- Updating an enrollment whose key resolves maps the row in place and
returns its updated value. -/
theorem update_user_course_found (db : DB) (v x : UserCourse)
    (hfind : db.userCourses.find? (fun e => decide (e.id = v.id)) = some x) :
    update_user_course db v =
      .ok ({ db with userCourses := db.userCourses.map (applyUserCourseUpdate v) },
           applyUserCourseUpdate v x) := by
  unfold update_user_course
  rw [find?_map_pred_inv (applyUserCourseUpdate v) _
    (fun a => by rw [applyUserCourseUpdate_id]), hfind]
  rfl

/-- Successful activation of a fresh enrollment in a course with a lowest
stage: the store gains exactly that stage's progress row and the enrollment
is marked activated on its first stage. -/
theorem activate_fresh (db : DB) (uc : UserCourse) (st1 : Stage) (fid now : Nat)
    (hfind : db.userCourses.find? (fun e => decide (e.id = uc.id)) = some uc)
    (hfresh : ∀ x ∈ db.userStages, x.userCourseId ≠ uc.id)
    (hfirst : first db uc.courseSlug = some st1) :
    activate db uc fid now = .ok
      { db with
          userStages := db.userStages ++ [UserStage.new fid uc.id st1.id now],
          userCourses := db.userCourses.map
            (applyUserCourseUpdate { uc with currentStageId := some st1.id, activated := true }) } := by
  unfold activate
  simp only [hfirst]
  have hnew : ∀ x ∈ db.userStages,
      ¬(x.userCourseId = (UserStage.new fid uc.id st1.id now).userCourseId ∧
        x.stageId = (UserStage.new fid uc.id st1.id now).stageId) := by
    intro x hx hpx
    exact hfresh x hx hpx.1
  simp only [create_user_stage_ok _ _ hnew]
  rw [update_user_course_found
    { db with userStages := db.userStages ++ [UserStage.new fid uc.id st1.id now] }
    { uc with currentStageId := some st1.id, activated := true } uc hfind]
  rfl

/-- Eliminating a successful enrollment lookup by id. -/
theorem get_user_course_by_id_eq (db : DB) (rid : Nat) (uc : UserCourse)
    (h : get_user_course_by_id db rid = .ok uc) :
    db.userCourses.find? (fun e => decide (e.id = rid)) = some uc ∧ uc.id = rid := by
  unfold get_user_course_by_id at h
  cases hf : db.userCourses.find? (fun e => decide (e.id = rid)) with
  | none => rw [hf] at h; exact absurd h (by simp)
  | some e =>
      rw [hf] at h
      simp only [Except.ok.injEq] at h
      subst h
      have hp := List.find?_some hf
      simp only [decide_eq_true_eq] at hp
      exact ⟨rfl, hp⟩

/-- Activating an enrollment of a course with no stages only flips the
`activated` flag: no progress row is created and `current_stage` is kept. -/
theorem activate_no_stage (db : DB) (uc : UserCourse) (fid now : Nat)
    (hfind : db.userCourses.find? (fun e => decide (e.id = uc.id)) = some uc)
    (hempty : courseStages db uc.courseSlug = []) :
    activate db uc fid now = .ok
      { db with userCourses :=
          db.userCourses.map (applyUserCourseUpdate { uc with activated := true }) } := by
  unfold activate
  have h1 : first db uc.courseSlug = none := by
    unfold first
    rw [hempty]
    rfl
  simp only [h1]
  rw [update_user_course_found db { uc with activated := true } uc hfind]
  rfl

/-- C9: a push to the main branch of a non-template repository, for a fresh
unactivated enrollment of a course that has stages, activates the enrollment:
exactly one progress row is created — for the lowest-weight stage of the
course, with status `in_progress` — `current_stage` is set to that stage,
`activated` becomes true, and no job is submitted (the outcome is
`activated`, not `triggered`). -/
theorem c9_first_push_activates (db : DB) (rid fid now : Nat) (uc : UserCourse) (st1 : Stage)
    (h1 : get_user_course_by_id db rid = .ok uc)
    (h2 : uc.activated = false)
    (h3 : uc.currentStageId = none)
    (h4 : ∀ x ∈ db.userStages, x.userCourseId ≠ uc.id)
    (h5 : first db uc.courseSlug = some st1) :
    ∃ db',
      handle_gitea_webhook db false "refs/heads/main" rid fid now = (db', .ok (some .activated)) ∧
      db'.userStages = db.userStages ++ [UserStage.new fid uc.id st1.id now] ∧
      (UserStage.new fid uc.id st1.id now).status = "in_progress" ∧
      st1 ∈ courseStages db uc.courseSlug ∧
      (∀ t ∈ courseStages db uc.courseSlug, st1.weight ≤ t.weight) ∧
      get_user_course_by_id db' rid =
        .ok { uc with currentStageId := some st1.id, activated := true } ∧
      inProgressCount db' uc.id = 1 := by
  obtain ⟨hf, hucid⟩ := get_user_course_by_id_eq db rid uc h1
  have hfind : db.userCourses.find? (fun e => decide (e.id = uc.id)) = some uc := by
    rw [hucid]
    exact hf
  have hcss : currentStageSlug db uc = none := by
    unfold currentStageSlug
    rw [h3]
    rfl
  have hact := activate_fresh db uc st1 fid now hfind h4 h5
  refine ⟨{ db with
      userStages := db.userStages ++ [UserStage.new fid uc.id st1.id now],
      userCourses := db.userCourses.map
        (applyUserCourseUpdate { uc with currentStageId := some st1.id, activated := true }) },
    ?_, rfl, rfl, (minWeightStage_spec _ _ h5).1, (minWeightStage_spec _ _ h5).2,
    ?_, ?_⟩
  · unfold handle_gitea_webhook process
    simp only [h1, hcss, hact]
    rfl
  · unfold get_user_course_by_id
    rw [show ({ db with
        userStages := db.userStages ++ [UserStage.new fid uc.id st1.id now],
        userCourses := db.userCourses.map
          (applyUserCourseUpdate { uc with currentStageId := some st1.id, activated := true }) } : DB).userCourses
      = db.userCourses.map
          (applyUserCourseUpdate { uc with currentStageId := some st1.id, activated := true })
      from rfl]
    rw [find?_map_pred_inv _ _ (fun a => by rw [applyUserCourseUpdate_id]), hf]
    simp [applyUserCourseUpdate]
  · unfold inProgressCount
    rw [show ({ db with
        userStages := db.userStages ++ [UserStage.new fid uc.id st1.id now],
        userCourses := db.userCourses.map
          (applyUserCourseUpdate { uc with currentStageId := some st1.id, activated := true }) } : DB).userStages
      = db.userStages ++ [UserStage.new fid uc.id st1.id now] from rfl]
    rw [List.countP_append]
    have hz : db.userStages.countP
        (fun us => decide (us.userCourseId = uc.id ∧ us.status = "in_progress")) = 0 := by
      rw [List.countP_eq_zero]
      intro x hx
      simp only [decide_eq_true_eq, not_and]
      intro hxi
      exact absurd hxi (h4 x hx)
    rw [hz]
    simp [List.countP_cons, UserStage.new]

/-- C9 witness: the fresh enrollment 30 of user `v` in course `c`, pushed
for the first time, gains exactly the progress row of stage `s0` (weight 0,
the course minimum) and no job is submitted. -/
theorem c9_witness :
    (∀ x ∈ exDb.userStages, x.userCourseId ≠ 30) ∧
    first exDb "c" = some ⟨1, "c", none, "s0", 0⟩ ∧
    (∃ db',
      handle_gitea_webhook exDb false "refs/heads/main" 30 200 3 = (db', .ok (some .activated)) ∧
      db'.userStages = exDb.userStages ++ [UserStage.new 200 30 1 3] ∧
      (UserStage.new 200 30 1 3).status = "in_progress" ∧
      (⟨1, "c", none, "s0", 0⟩ : Stage) ∈ courseStages exDb "c" ∧
      (∀ t ∈ courseStages exDb "c", (⟨1, "c", none, "s0", 0⟩ : Stage).weight ≤ t.weight) ∧
      get_user_course_by_id db' 30 =
        .ok ⟨30, "v", "c", some 1, 0, "beginner", "weekly", false, true⟩ ∧
      inProgressCount db' 30 = 1) :=
  ⟨by decide, by decide,
   c9_first_push_activates exDb 30 200 3
     ⟨30, "v", "c", none, 0, "beginner", "weekly", false, false⟩
     ⟨1, "c", none, "s0", 0⟩ (by decide) (by decide) (by decide) (by decide) (by decide)⟩

/-- Processing a push for an enrollment with no current stage whose course
has no stages: activation runs, only the `activated` flag changes, and no
progress row is created. -/
theorem process_zero_stage (db : DB) (rid fid now : Nat) (uc : UserCourse)
    (h1 : get_user_course_by_id db rid = .ok uc)
    (h3 : uc.currentStageId = none)
    (h5 : courseStages db uc.courseSlug = []) :
    ∃ db',
      process db rid fid now = (db', .ok .activated) ∧
      db'.stages = db.stages ∧
      db'.userStages = db.userStages ∧
      get_user_course_by_id db' rid = .ok { uc with activated := true } := by
  obtain ⟨hf, hucid⟩ := get_user_course_by_id_eq db rid uc h1
  have hfind : db.userCourses.find? (fun e => decide (e.id = uc.id)) = some uc := by
    rw [hucid]
    exact hf
  have hcss : currentStageSlug db uc = none := by
    unfold currentStageSlug
    rw [h3]
    rfl
  have hact := activate_no_stage db uc fid now hfind h5
  refine ⟨{ db with userCourses :=
      db.userCourses.map (applyUserCourseUpdate { uc with activated := true }) },
    ?_, rfl, rfl, ?_⟩
  · unfold process
    simp only [h1, hcss, hact]
  · unfold get_user_course_by_id
    rw [show ({ db with userCourses :=
        db.userCourses.map (applyUserCourseUpdate { uc with activated := true }) } : DB).userCourses
      = db.userCourses.map (applyUserCourseUpdate { uc with activated := true }) from rfl]
    rw [find?_map_pred_inv _ _ (fun a => by rw [applyUserCourseUpdate_id]), hf]
    simp [applyUserCourseUpdate]

/-- C10: for an enrollment whose course has no stages, processing a push
succeeds via activation — `activated` is set, no progress row is created,
`current_stage` stays null — and because `process` branches on
`current_stage` being null rather than on the `activated` flag, the next
push activates again instead of triggering a job: activation is not
one-time for such courses. -/
theorem c10_zero_stage_course_reactivates (db : DB) (rid fid now fid2 now2 : Nat)
    (uc : UserCourse)
    (h1 : get_user_course_by_id db rid = .ok uc)
    (h2 : uc.activated = false)
    (h3 : uc.currentStageId = none)
    (h5 : courseStages db uc.courseSlug = []) :
    ∃ db' db'',
      process db rid fid now = (db', .ok .activated) ∧
      db'.userStages = db.userStages ∧
      get_user_course_by_id db' rid = .ok { uc with activated := true } ∧
      ({ uc with activated := true } : UserCourse).currentStageId = none ∧
      process db' rid fid2 now2 = (db'', .ok .activated) ∧
      db''.userStages = db'.userStages := by
  obtain ⟨db', hp1, hs1, hus1, hg1⟩ := process_zero_stage db rid fid now uc h1 h3 h5
  have h3' : ({ uc with activated := true } : UserCourse).currentStageId = none := h3
  have h5' : courseStages db' ({ uc with activated := true } : UserCourse).courseSlug = [] := by
    show courseStages db' uc.courseSlug = []
    unfold courseStages
    rw [hs1]
    exact h5
  obtain ⟨db'', hp2, _, hus2, _⟩ := process_zero_stage db' rid fid2 now2 _ hg1 h3' h5'
  exact ⟨db', db'', hp1, hus1, hg1, h3', hp2, hus2⟩

/-- C10 witness: user `w`'s enrollment 20 in the stage-less course `z`,
pushed twice. -/
theorem c10_witness :
    courseStages exDb "z" = [] ∧
    (∃ db' db'',
      process exDb 20 300 4 = (db', .ok .activated) ∧
      db'.userStages = exDb.userStages ∧
      get_user_course_by_id db' 20 =
        .ok ⟨20, "w", "z", none, 0, "beginner", "weekly", false, true⟩ ∧
      (⟨20, "w", "z", none, 0, "beginner", "weekly", false, true⟩ : UserCourse).currentStageId
        = none ∧
      process db' 20 301 6 = (db'', .ok .activated) ∧
      db''.userStages = db'.userStages) :=
  ⟨by decide,
   c10_zero_stage_course_reactivates exDb 20 300 4 301 6
     ⟨20, "w", "z", none, 0, "beginner", "weekly", false, false⟩
     (by decide) (by decide) (by decide) (by decide)⟩

/-- C6 counterexample: activating the fresh enrollment 20 of the stage-less
course `z` succeeds but creates zero `in_progress` progress rows, not exactly
one. -/
theorem c6_counterexample :
    courseStages exDb "z" = [] ∧
    activate exDb ⟨20, "w", "z", none, 0, "beginner", "weekly", false, false⟩ 300 4 =
      .ok { exDb with userCourses :=
        [⟨10, "u", "c", some 2, 1, "beginner", "weekly", false, true⟩,
         ⟨20, "w", "z", none, 0, "beginner", "weekly", false, true⟩,
         ⟨30, "v", "c", none, 0, "beginner", "weekly", false, false⟩] } ∧
    inProgressCount { exDb with userCourses :=
        [⟨10, "u", "c", some 2, 1, "beginner", "weekly", false, true⟩,
         ⟨20, "w", "z", none, 0, "beginner", "weekly", false, true⟩,
         ⟨30, "v", "c", none, 0, "beginner", "weekly", false, false⟩] } 20 = 0 ∧
    (0 : Nat) ≠ 1 := by
  refine ⟨by decide, by decide, by decide, by decide⟩

/-- C6, as amended: at most one progress row of an enrollment is
`in_progress` after every operation — activation of a fresh enrollment
whose course has a lowest stage creates exactly one `in_progress` row (and
leaves every other enrollment's count unchanged; a course with no stages
yields none), and the Stage-Completion Transaction, which in the committed
code never succeeds (its malformed UPDATE fails every call), always returns
the store unchanged and so leaves every enrollment's `in_progress` count
exactly as it was. -/
theorem c6_single_in_progress :
    (∀ (db : DB) (uc : UserCourse) (st1 : Stage) (fid now : Nat),
        db.userCourses.find? (fun e => decide (e.id = uc.id)) = some uc →
        (∀ x ∈ db.userStages, x.userCourseId ≠ uc.id) →
        first db uc.courseSlug = some st1 →
        ∃ db', activate db uc fid now = .ok db' ∧
          inProgressCount db' uc.id = 1 ∧
          ∀ i, i ≠ uc.id → inProgressCount db' i = inProgressCount db i) ∧
    (∀ (db : DB) (u c s : String) (now fid i : Nat),
        inProgressCount (complete db u c s now fid).1 i = inProgressCount db i) := by
  constructor
  · intro db uc st1 fid now hfind hfresh hfirst
    refine ⟨_, activate_fresh db uc st1 fid now hfind hfresh hfirst, ?_, ?_⟩
    · show (db.userStages ++ [UserStage.new fid uc.id st1.id now]).countP
        (fun us => decide (us.userCourseId = uc.id ∧ us.status = "in_progress")) = 1
      rw [List.countP_append]
      have hz : db.userStages.countP
          (fun us => decide (us.userCourseId = uc.id ∧ us.status = "in_progress")) = 0 := by
        rw [List.countP_eq_zero]
        intro x hx
        simp only [decide_eq_true_eq, not_and]
        intro hxi
        exact absurd hxi (hfresh x hx)
      rw [hz]
      simp [List.countP_cons, UserStage.new]
    · intro i hi
      show (db.userStages ++ [UserStage.new fid uc.id st1.id now]).countP
          (fun us => decide (us.userCourseId = i ∧ us.status = "in_progress")) =
        db.userStages.countP (fun us => decide (us.userCourseId = i ∧ us.status = "in_progress"))
      rw [List.countP_append]
      have h1 : ([UserStage.new fid uc.id st1.id now] : List UserStage).countP
          (fun us => decide (us.userCourseId = i ∧ us.status = "in_progress")) = 0 := by
        simp only [List.countP_cons, List.countP_nil, UserStage.new]
        rw [if_neg]
        simp only [decide_eq_true_eq, not_and]
        intro h'
        exact absurd h'.symm hi
      rw [h1]
      omega
  · intro db u c s now fid i
    rw [(complete_never_ok db u c s now fid).1]

/-- C6 witness: the amended theorem applied to the concrete store —
activating fresh enrollment 30 yields exactly one `in_progress` row, and a
completion call by user `u` for stage `s1` (which dies on the malformed
update) leaves enrollment 10's `in_progress` count exactly as it was. -/
theorem c6_witness :
    (∃ db', activate exDb ⟨30, "v", "c", none, 0, "beginner", "weekly", false, false⟩ 200 3 =
        .ok db' ∧
      inProgressCount db' 30 = 1 ∧
      ∀ i, i ≠ 30 → inProgressCount db' i = inProgressCount exDb i) ∧
    inProgressCount (complete exDb "u" "c" "s1" 5 102).1 10 = inProgressCount exDb 10 ∧
    inProgressCount exDb 10 = 1 :=
  ⟨c6_single_in_progress.1 exDb
      ⟨30, "v", "c", none, 0, "beginner", "weekly", false, false⟩
      ⟨1, "c", none, "s0", 0⟩ 200 3 (by decide) (by decide) (by decide),
   c6_single_in_progress.2 exDb "u" "c" "s1" 5 102 10,
   by decide⟩

/-- C1: the claim says invoking the Stage-Completion Transaction twice in a
row for the same (user, course, stage) succeeds exactly once — the second
call failing "stage already completed" — with `completed_stage_count` up by
exactly 1.  In the committed code the `UPDATE user_stages` statement is
malformed (trailing comma in the SET list, `$4` with only three bound
parameters), so every call fails: invoking the transaction twice succeeds
zero times, not once; the second call fails with the same database error,
never "already completed"; and the count rises by 0, not 1 — the store,
count included, comes back unchanged from both calls. -/
theorem c1_completion_never_succeeds :
    (∀ (db : DB) (u c s : String) (now fid now2 fid2 : Nat),
        (complete db u c s now fid).1 = db ∧
        (∀ row : UserStage, (complete db u c s now fid).2 ≠ .ok row) ∧
        complete (complete db u c s now fid).1 u c s now2 fid2 =
          complete db u c s now2 fid2) ∧
    complete exDb "u" "c" "s1" 5 102 = (exDb, .error .databaseError) ∧
    complete (complete exDb "u" "c" "s1" 5 102).1 "u" "c" "s1" 7 103 =
      (exDb, .error .databaseError) ∧
    (get_user_course
        (complete (complete exDb "u" "c" "s1" 5 102).1 "u" "c" "s1" 7 103).1 "u" "c").map
      (fun uc => uc.completedStageCount) = .ok 1 ∧
    (get_user_course exDb "u" "c").map (fun uc => uc.completedStageCount) = .ok 1 := by
  refine ⟨?_, by decide, by decide, by decide, by decide⟩
  intro db u c s now fid now2 fid2
  obtain ⟨h1, e, h2⟩ := complete_never_ok db u c s now fid
  exact ⟨h1, fun row => complete_no_row db u c s now fid row, by rw [h1]⟩

/-- Big-endian byte extraction stays below 256. -/
theorem toBytesBE_lt (n v : Nat) : ∀ b ∈ toBytesBE n v, b < 256 := by
  intro b hb
  unfold toBytesBE at hb
  obtain ⟨i, _, rfl⟩ := List.mem_map.mp hb
  exact Nat.mod_lt _ (by norm_num)

/-- SHA-256 emits bytes. -/
theorem sha256Bytes_lt (msg : List Nat) : ∀ b ∈ sha256Bytes msg, b < 256 := by
  intro b hb
  simp only [sha256Bytes, List.mem_append] at hb
  rcases hb with ((((((h | h) | h) | h) | h) | h) | h) | h <;> exact toBytesBE_lt _ _ _ h

/-- The value of a hex digit character. -/
theorem hexChar_toNat (n : Nat) (h : n < 16) :
    (hexChar n).toNat = if n < 10 then 48 + n else 87 + n := by
  interval_cases n <;> rfl

/-- Hex digit characters are distinct. -/
theorem hexChar_inj (a b : Nat) (ha : a < 16) (hb : b < 16) (h : hexChar a = hexChar b) :
    a = b := by
  have h' := congrArg Char.toNat h
  rw [hexChar_toNat a ha, hexChar_toNat b hb] at h'
  split_ifs at h' <;> omega

/-- Hex encoding is injective on byte lists. -/
theorem hexOfBytes_inj : ∀ (bs cs : List Nat), (∀ b ∈ bs, b < 256) → (∀ c ∈ cs, c < 256) →
    hexOfBytes bs = hexOfBytes cs → bs = cs := by
  intro bs
  induction bs with
  | nil =>
      intro cs _ _ h
      cases cs with
      | nil => rfl
      | cons c t =>
          exfalso
          unfold hexOfBytes at h
          rw [List.foldr_nil, List.foldr_cons] at h
          injection h with hd
          exact absurd hd (by simp)
  | cons b t ih =>
      intro cs hb hc h
      cases cs with
      | nil =>
          exfalso
          unfold hexOfBytes at h
          rw [List.foldr_nil, List.foldr_cons] at h
          injection h with hd
          exact absurd hd (by simp)
      | cons c t2 =>
          unfold hexOfBytes at h
          rw [List.foldr_cons, List.foldr_cons] at h
          injection h with hd
          injection hd with h1 hd'
          injection hd' with h2 hd''
          have hb16 : b / 16 % 16 < 16 := Nat.mod_lt _ (by norm_num)
          have hc16 : c / 16 % 16 < 16 := Nat.mod_lt _ (by norm_num)
          have hb16' : b % 16 < 16 := Nat.mod_lt _ (by norm_num)
          have hc16' : c % 16 < 16 := Nat.mod_lt _ (by norm_num)
          have e1 := hexChar_inj _ _ hb16 hc16 h1
          have e2 := hexChar_inj _ _ hb16' hc16' h2
          have hbb : b < 256 := hb b (by simp)
          have hcc : c < 256 := hc c (by simp)
          have hbc : b = c := by omega
          rw [hbc, ih t2 (fun x hx => hb x (by simp [hx])) (fun x hx => hc x (by simp [hx]))
            (congrArg String.mk hd'')]

set_option maxRecDepth 1000000 in
set_option maxHeartbeats 64000000 in
/-- The HMAC of the spec's §8 example payload under the key `k` matches the
reference digest. -/
theorem hmac_digest_r1c1s1 : hmacSha256 (utf8 "k") (utf8 "r1c1s1") = expectedDigest := by
  decide

set_option maxRecDepth 1000000 in
set_option maxHeartbeats 64000000 in
/-- Flipping the lowest bit of payload byte 0 changes the MAC. -/
theorem hmac_mut_0_lo : hmacSha256 (utf8 "k") (c5mut 0 0) ≠ expectedDigest := by decide

set_option maxRecDepth 1000000 in
set_option maxHeartbeats 64000000 in
/-- Flipping the highest bit of payload byte 0 changes the MAC. -/
theorem hmac_mut_0_hi : hmacSha256 (utf8 "k") (c5mut 0 7) ≠ expectedDigest := by decide

set_option maxRecDepth 1000000 in
set_option maxHeartbeats 64000000 in
/-- Flipping the lowest bit of payload byte 1 changes the MAC. -/
theorem hmac_mut_1_lo : hmacSha256 (utf8 "k") (c5mut 1 0) ≠ expectedDigest := by decide

set_option maxRecDepth 1000000 in
set_option maxHeartbeats 64000000 in
/-- Flipping the highest bit of payload byte 1 changes the MAC. -/
theorem hmac_mut_1_hi : hmacSha256 (utf8 "k") (c5mut 1 7) ≠ expectedDigest := by decide

set_option maxRecDepth 1000000 in
set_option maxHeartbeats 64000000 in
/-- Flipping the lowest bit of payload byte 2 changes the MAC. -/
theorem hmac_mut_2_lo : hmacSha256 (utf8 "k") (c5mut 2 0) ≠ expectedDigest := by decide

set_option maxRecDepth 1000000 in
set_option maxHeartbeats 64000000 in
/-- Flipping the highest bit of payload byte 2 changes the MAC. -/
theorem hmac_mut_2_hi : hmacSha256 (utf8 "k") (c5mut 2 7) ≠ expectedDigest := by decide

set_option maxRecDepth 1000000 in
set_option maxHeartbeats 64000000 in
/-- Flipping the lowest bit of payload byte 3 changes the MAC. -/
theorem hmac_mut_3_lo : hmacSha256 (utf8 "k") (c5mut 3 0) ≠ expectedDigest := by decide

set_option maxRecDepth 1000000 in
set_option maxHeartbeats 64000000 in
/-- Flipping the highest bit of payload byte 3 changes the MAC. -/
theorem hmac_mut_3_hi : hmacSha256 (utf8 "k") (c5mut 3 7) ≠ expectedDigest := by decide

set_option maxRecDepth 1000000 in
set_option maxHeartbeats 64000000 in
/-- Flipping the lowest bit of payload byte 4 changes the MAC. -/
theorem hmac_mut_4_lo : hmacSha256 (utf8 "k") (c5mut 4 0) ≠ expectedDigest := by decide

set_option maxRecDepth 1000000 in
set_option maxHeartbeats 64000000 in
/-- Flipping the highest bit of payload byte 4 changes the MAC. -/
theorem hmac_mut_4_hi : hmacSha256 (utf8 "k") (c5mut 4 7) ≠ expectedDigest := by decide

set_option maxRecDepth 1000000 in
set_option maxHeartbeats 64000000 in
/-- Flipping the lowest bit of payload byte 5 changes the MAC. -/
theorem hmac_mut_5_lo : hmacSha256 (utf8 "k") (c5mut 5 0) ≠ expectedDigest := by decide

set_option maxRecDepth 1000000 in
set_option maxHeartbeats 64000000 in
/-- Flipping the highest bit of payload byte 5 changes the MAC. -/
theorem hmac_mut_5_hi : hmacSha256 (utf8 "k") (c5mut 5 7) ≠ expectedDigest := by decide

/-- C5: signature verification accepts exactly the hex-encoded HMAC-SHA256
of repo ++ course ++ stage under the secret (so any change to the received
signature is rejected); at the spec's concrete example — payload `r1c1s1`,
secret `k` — the correct signature is accepted, the digest matches a
cross-checked reference value, and a sample of single-bit corruptions
covering every payload byte (the lowest and the highest bit of each of the
six bytes of repo, course and stage, each a genuine change of the payload)
changes the MAC, so the corrupted payload no longer verifies against the
original signature. -/
theorem c5_signature_verification :
    (∀ repo course stage secret sig,
        hmac_sha256_verify (repo ++ course ++ stage) secret sig = true ↔
        sig = hmac_sha256_sign (repo ++ course ++ stage) secret) ∧
    hmac_sha256_verify ("r1" ++ "c1" ++ "s1") "k"
      (hmac_sha256_sign ("r1" ++ "c1" ++ "s1") "k") = true ∧
    hmacSha256 (utf8 "k") (utf8 "r1c1s1") = expectedDigest ∧
    ((utf8 "r1c1s1").length = 6 ∧
      ∀ i < 6, c5mut i 0 ∈ c5Mutations ∧ c5mut i 7 ∈ c5Mutations ∧
        c5mut i 0 ≠ utf8 "r1c1s1" ∧ c5mut i 7 ≠ utf8 "r1c1s1") ∧
    (∀ m ∈ c5Mutations, hmacSha256 (utf8 "k") m ≠ expectedDigest) ∧
    (∀ m ∈ c5Mutations,
      hexOfBytes (hmacSha256 (utf8 "k") m) ≠ hmac_sha256_sign "r1c1s1" "k") := by
  have hlist : c5Mutations =
      [c5mut 0 0, c5mut 0 7, c5mut 1 0, c5mut 1 7, c5mut 2 0, c5mut 2 7,
       c5mut 3 0, c5mut 3 7, c5mut 4 0, c5mut 4 7, c5mut 5 0, c5mut 5 7] := rfl
  have hmut : ∀ m ∈ c5Mutations, hmacSha256 (utf8 "k") m ≠ expectedDigest := by
    intro m hm
    rw [hlist] at hm
    simp only [List.mem_cons, List.not_mem_nil, or_false] at hm
    rcases hm with rfl | rfl | rfl | rfl | rfl | rfl | rfl | rfl | rfl | rfl | rfl | rfl
    · exact hmac_mut_0_lo
    · exact hmac_mut_0_hi
    · exact hmac_mut_1_lo
    · exact hmac_mut_1_hi
    · exact hmac_mut_2_lo
    · exact hmac_mut_2_hi
    · exact hmac_mut_3_lo
    · exact hmac_mut_3_hi
    · exact hmac_mut_4_lo
    · exact hmac_mut_4_hi
    · exact hmac_mut_5_lo
    · exact hmac_mut_5_hi
  refine ⟨?_, ?_, hmac_digest_r1c1s1, by decide, hmut, ?_⟩
  · intro repo course stage secret sig
    simp [hmac_sha256_verify]
  · simp [hmac_sha256_verify]
  · intro m hm heq
    apply hmut m hm
    apply hexOfBytes_inj
    · exact sha256Bytes_lt _
    · intro x hx
      have : ∀ x ∈ expectedDigest, x < 256 := by decide
      exact this x hx
    · rw [heq]
      show hexOfBytes (hmacSha256 (utf8 "k") (utf8 "r1c1s1")) = hexOfBytes expectedDigest
      rw [hmac_digest_r1c1s1]

/-- C3: when the current stage of the course resolves, any stage returned by
`find_next_stage_by_slug` belongs to the same course (base and extension
stages scanned as one merged sequence) and has the minimal weight strictly
greater than the current stage's; concretely, with base weights 0, 1, 2 and
extension weights 1000, 1001, completing the stage at weight 1 selects the
stage at weight 2, never the extension stage at weight 1000. -/
theorem c3_next_stage_minimal_weight :
    (∀ (db : DB) (c s : String) (cur next : Stage),
        db.stages.find? (fun st => decide (st.courseSlug = c ∧ st.slug = s)) = some cur →
        find_next_stage_by_slug db c s = some next →
        next ∈ db.stages ∧ next.courseSlug = c ∧ cur.weight < next.weight ∧
        ∀ t ∈ db.stages, t.courseSlug = c → cur.weight < t.weight → next.weight ≤ t.weight) ∧
    find_next_stage_by_slug exDb "c" "s1" = some ⟨3, "c", none, "s2", 2⟩ ∧
    ((3 : Nat) ≠ 4 ∧ (⟨4, "c", some 1, "e1", 1000⟩ : Stage) ∈ exDb.stages) := by
  refine ⟨?_, by decide, by decide⟩
  intro db c s cur next hcur hnext
  unfold find_next_stage_by_slug at hnext
  rw [hcur] at hnext
  rcases minWeightStage_spec _ _ hnext with ⟨hmem, hall⟩
  rcases List.mem_filter.mp hmem with ⟨hmem2, hgt⟩
  rcases List.mem_filter.mp hmem2 with ⟨hmem3, hslug⟩
  refine ⟨hmem3, of_decide_eq_true hslug, of_decide_eq_true hgt, ?_⟩
  intro t ht htc htw
  exact hall t (List.mem_filter.mpr ⟨List.mem_filter.mpr ⟨ht, decide_eq_true htc⟩,
    decide_eq_true htw⟩)

/-- C3 witness: the general part applied to the concrete course — completing
`s1` (weight 1) selects `s2` (weight 2) and every course stage heavier than
weight 1, extension stages included, weighs at least 2. -/
theorem c3_witness :
    (exDb.stages.find? (fun st => decide (st.courseSlug = "c" ∧ st.slug = "s1")) =
      some ⟨2, "c", none, "s1", 1⟩) ∧
    ((⟨3, "c", none, "s2", 2⟩ : Stage) ∈ exDb.stages ∧
      (⟨3, "c", none, "s2", 2⟩ : Stage).courseSlug = "c" ∧
      (⟨2, "c", none, "s1", 1⟩ : Stage).weight < (⟨3, "c", none, "s2", 2⟩ : Stage).weight ∧
      ∀ t ∈ exDb.stages, t.courseSlug = "c" →
        (⟨2, "c", none, "s1", 1⟩ : Stage).weight < t.weight →
        (⟨3, "c", none, "s2", 2⟩ : Stage).weight ≤ t.weight) :=
  ⟨by decide,
   c3_next_stage_minimal_weight.1 exDb "c" "s1" ⟨2, "c", none, "s1", 1⟩ ⟨3, "c", none, "s2", 2⟩
     (by decide) (by decide)⟩

/-- C7: the rendered PipelineRun does carry (repo, course, stage) as
retrievable labels, but its `SECRET` parameter is the empty string
(`let secret = String::new()` in `PipelineService::generate`), not the
HMAC-SHA256 signature of repo ++ course ++ stage under the process-wide
secret that `handle_tekton_webhook` will verify — the signature is a 64-digit
hex string, never empty, so the job's own completion callback can never
authenticate. -/
theorem c7_secret_param_not_signed :
    (generate exCfg exDb "job1" "r1" "c1" "s1").labels =
      [("stackclass.dev/repo", "r1"), ("stackclass.dev/course", "c1"),
       ("stackclass.dev/stage", "s1")] ∧
    (generate exCfg exDb "job1" "r1" "c1" "s1").params =
      [("REPO_URL", "https://git.example/org/r1.git"),
       ("COURSE_IMAGE", "registry.example/org/r1:latest"),
       ("TESTER_IMAGE", "ghcr.io/stackclass/c1-tester"),
       ("TEST_IMAGE", "registry.example/org/r1-test:latest"),
       ("COMMAND", "/app/c1-tester"),
       ("TEST_CASES_JSON", ""),
       ("WEBHOOK_URL", "https://hooks.example/v1/webhooks/tekton"),
       ("REPO", "r1"), ("COURSE", "c1"), ("STAGE", "s1"),
       ("SECRET", "")] ∧
    hmac_sha256_sign ("r1" ++ "c1" ++ "s1") exCfg.authSecret ≠ "" := by
  refine ⟨by decide, by decide, ?_⟩
  decide

end StackClass
